import Mathlib

/-!
Verification of the restic backend registry and watchdog roundtriper core

This file gives a shallow embedding of two Go source files of the repository:

* `internal/backend/watchdog_roundtriper.go` — a watchdog HTTP roundtriper that
  cancels a request when an upload or download makes no progress within a
  timeout, together with the `watchdogReadCloser` body wrapper; and
* the backend `location` registry with its type-erasing `GenericBackendFactory`.

Pure functions are embedded as Lean functions; the side effects of the Go code
(invocations of the `kick`/`close` callbacks, reads and closes of the wrapped
stream) are made observable as explicit event traces; Go panics (failed type
assertion, nil pointer dereference, duplicate registration, slice out of
bounds) are embedded as the error side of an `Except Defect` result; the timer
and watcher goroutine of `RoundTrip` are embedded as a discrete-event state
machine driven by a timed trace of external stimuli.
-/

set_option autoImplicit false

namespace ResticBackend

/-- Errors returned by underlying readers/closers and by backend constructors.
`canceled` stands for the context cancellation error (`context.Canceled`). -/
inductive GoErr where
  | canceled
  | readErr (code : Nat)
  deriving DecidableEq, Repr

/-- Go runtime panics reachable in the embedded code: a failed interface type
assertion, a nil pointer dereference, the explicit `panic("duplicate backend")`
of the registry, and a slice-bounds violation. -/
inductive Defect where
  | badCast
  | nilDeref
  | dupRegister
  | sliceBounds
  deriving DecidableEq, Repr

/-! Section: watchdogReadCloser

Embedding of the `watchdogReadCloser` struct of
`internal/backend/watchdog_roundtriper.go`. The wrapped `io.ReadCloser` is
embedded by two fields: `readFn`, giving the `(n, err)` result of `rc.Read`
as a function of the capacity of the buffer it is handed, and `closeFn`,
the result of `rc.Close`. The `kick` and `close` callbacks and the calls into
the wrapped stream are recorded in an event trace so that their number and
order are provable. `chunkSize` is a Go `int`, embedded as `Int`. -/

/-- Observable events of a `watchdogReadCloser`: a call of the `kick`
callback, a read of the underlying stream with the given buffer capacity,
a call of the `close` callback, and a close of the underlying stream. -/
inductive RCEvent where
  | kick
  | uread (cap : Nat)
  | closeAct
  | uclose
  deriving DecidableEq, Repr

/-- Embedding of the `watchdogReadCloser` struct. `hasCloseAction` records
whether the `close` callback field is non-nil. -/
structure watchdogReadCloser where
  readFn : Nat → Nat × Option GoErr
  closeFn : Option GoErr
  chunkSize : Int
  hasCloseAction : Bool

/-- Embedding of `watchdogReadCloser.Read`. The Go code is

  w.kick()
  if len(p) > w.chunkSize { p = p[:w.chunkSize] }
  n, err = w.rc.Read(p)
  w.kick()
  return n, err

The buffer `p` is embedded by its length `plen`. The slice expression
`p[:w.chunkSize]` panics when `chunkSize` is negative (slice bounds out of
range), embedded as `Except.error Defect.sliceBounds`. On success the result
carries the `(n, err)` pair of the underlying read and the event trace. -/
def watchdogReadCloser.Read (w : watchdogReadCloser) (plen : Nat) :
    Except Defect ((Nat × Option GoErr) × List RCEvent) :=
  if (plen : Int) > w.chunkSize then
    if w.chunkSize < 0 then
      Except.error Defect.sliceBounds
    else
      let cap := w.chunkSize.toNat
      Except.ok (w.readFn cap, [RCEvent.kick, RCEvent.uread cap, RCEvent.kick])
  else
    Except.ok (w.readFn plen, [RCEvent.kick, RCEvent.uread plen, RCEvent.kick])

/-- Embedding of `watchdogReadCloser.Close`. The Go code is

  if w.close != nil { w.close() }
  return w.rc.Close()

The result is the underlying close's result together with the event trace. -/
def watchdogReadCloser.Close (w : watchdogReadCloser) :
    Option GoErr × List RCEvent :=
  (w.closeFn,
    (if w.hasCloseAction then [RCEvent.closeAct] else []) ++ [RCEvent.uclose])

/-- Event trace of `k` successive calls of `watchdogReadCloser.Close` on the
same wrapper (the wrapper is stateless, so each call behaves identically). -/
def watchdogReadCloser.closeMany (w : watchdogReadCloser) (k : Nat) :
    List RCEvent :=
  (List.replicate k w.Close.2).flatten

/-! Section: watchdogRoundtriper.RoundTrip: timer, watcher goroutine and context

Embedding of the concurrency of `watchdogRoundtriper.RoundTrip` as a
discrete-event state machine. `RoundTrip` starts a timer of length `timeout`,
derives a cancellable context from the request's context, and launches one
watcher goroutine

  go func() {
    defer timer.Stop()
    select {
    case <-timer.C: cancel()
    case <-ctx.Done():
    }
  }()

The external stimuli of this machine are: a `kick` (the body wrappers call
`timer.Reset(timeout)` on read progress), an independent cancellation of the
request's context (which propagates to the derived context), and a close of
the response body (whose close action is `cancel`). A run is a list of such
stimuli with the delay since the previous stimulus; the timer firing and the
watcher's reaction are computed. The watcher reacts instantly: as soon as the
timer fires the context is cancelled and the watcher exits, and as soon as the
context is done the watcher exits; on exit the deferred `timer.Stop()` runs. -/

/-- State of one `RoundTrip` call's timer/watcher/context machinery.
`now` is the current time, `deadline` the absolute time at which the armed
timer fires, `cancelled` whether the derived context has been cancelled,
`cancelTime` when it was first cancelled, `watcherDone` whether the watcher
goroutine has exited, and `timerStopped` whether the watcher's deferred
`timer.Stop()` has run. -/
structure WdState where
  now : Nat
  deadline : Nat
  cancelled : Bool
  cancelTime : Option Nat
  watcherDone : Bool
  timerStopped : Bool
  deriving DecidableEq, Repr

/-- External stimuli of one `RoundTrip` call: a timer kick from a body read,
an independent cancellation of the request's own context, and a close of the
watchdog-wrapped response body. -/
inductive WdAction where
  | kick
  | cancelParent
  | closeBody
  deriving DecidableEq, Repr

/-- Initial state: the timer is armed for time `T` and the watcher is alive. -/
def wdInit (T : Nat) : WdState :=
  { now := 0, deadline := T, cancelled := false, cancelTime := none,
    watcherDone := false, timerStopped := false }

/-- Embedding of `cancel()`: context cancellation is idempotent, the first
call at time `t` marks the derived context cancelled. -/
def doCancel (t : Nat) (s : WdState) : WdState :=
  if s.cancelled then s else { s with cancelled := true, cancelTime := some t }

/-- The watcher goroutine exits; its deferred `timer.Stop()` runs. -/
def watcherExit (s : WdState) : WdState :=
  { s with watcherDone := true, timerStopped := true }

/-- Advance time to `t'`, letting the watcher act in the interim: if it is
still blocked in its `select` and the context is already done it exits; if
the armed timer's deadline passed strictly before `t'` the timer fires, the
watcher cancels the derived context at the deadline and exits. -/
def stepTimer (s : WdState) (t' : Nat) : WdState :=
  if s.watcherDone then { s with now := t' }
  else if s.cancelled then watcherExit { s with now := t' }
  else if s.deadline < t' then
    watcherExit (doCancel s.deadline { s with now := t' })
  else { s with now := t' }

/-- Apply an external stimulus at the current time. A kick is
`timer.Reset(timeout)`, re-arming the timer for `now + T` (a reset after the
watcher exited re-arms a timer nobody listens to; `deadline` is then inert).
Cancelling the parent context and closing the response body both run
`cancel()`; the watcher observes the done context and exits. -/
def applyAction (T : Nat) (s : WdState) (a : WdAction) : WdState :=
  match a with
  | WdAction.kick => { s with deadline := s.now + T }
  | WdAction.cancelParent =>
      let s' := doCancel s.now s
      if s'.watcherDone then s' else watcherExit s'
  | WdAction.closeBody =>
      let s' := doCancel s.now s
      if s'.watcherDone then s' else watcherExit s'

/-- One step of the machine: wait out the delay, then apply the stimulus. -/
def wdStep (T : Nat) (s : WdState) (e : Nat × WdAction) : WdState :=
  applyAction T (stepTimer s (s.now + e.1)) e.2

/-- Run one `RoundTrip` call's machinery over a timed trace of stimuli. -/
def wdRun (T : Nat) (es : List (Nat × WdAction)) : WdState :=
  es.foldl (wdStep T) (wdInit T)

/-- Final state after the last external stimulus ever: if the watcher is
still blocked, the armed timer eventually fires at its deadline, the watcher
cancels the context and exits (this is what happens on the code path where
the wrapped transport returns an error, so that nothing closes the body). -/
def wdFinal (T : Nat) (es : List (Nat × WdAction)) : WdState :=
  let s := wdRun T es
  if s.watcherDone then s else watcherExit (doCancel s.deadline s)

/-- Number of watcher goroutines of this `RoundTrip` call that are alive. -/
def aliveWatchers (s : WdState) : Nat :=
  if s.watcherDone then 0 else 1

/-- Modelled from the spec: the wrapped transport and its streams (external
collaborators, out of scope of the source files) are context-aware — once the
derived context is cancelled, an in-flight or subsequent read observes this
and unwinds with the context's cancellation error instead of blocking. -/
def ctxAwareRead (cancelled : Bool) (normal : Nat → Nat × Option GoErr) :
    Nat → Nat × Option GoErr :=
  fun cap => if cancelled then (0, some GoErr.canceled) else normal cap

/-! Section: Backend registry and generic factory

Embedding of the `location` package file (registry, `Factory` interface and
`GenericBackendFactory`). Go's `interface{}` config values are embedded as
dynamic values over a small closed universe of config types: a type code
together with a possibly-nil pointer to a value of the coded type (the Go
code only ever stores `*C` values in the opaque config). A failed type
assertion `cfg.(*C)` is the `badCast` defect; dereferencing a nil `*C` is the
`nilDeref` defect. -/

/-- Closed universe of concrete config types used to embed Go's dynamic
typing of the opaque config value. -/
inductive TyCode where
  | cString
  | cNat
  | cPair
  deriving DecidableEq, Repr

/-- Interpretation of the config type codes. -/
@[reducible]
def TyCode.interp : TyCode → Type
  | TyCode.cString => String
  | TyCode.cNat => Nat
  | TyCode.cPair => String × Nat

/-- A Go `interface{}` value holding a `*C` pointer: the dynamic type code
`C` together with the pointer, `none` being a typed nil pointer. -/
def Dyn : Type := Σ t : TyCode, Option t.interp

/-- Embedding of `GenericBackendFactory[C, T]`: the strongly typed parse,
strip-password, create and open functions of one backend kind. `Ctx`, `RT`,
`Lim` and `B` embed `context.Context`, `http.RoundTripper`,
`limiter.Limiter` and the backend type `T`. `parseConfigFn` returns a `*C`
(possibly nil) or an error; `stripPasswordFn` is nil-able. -/
structure GenericBackendFactory (C : TyCode) (Ctx RT Lim B : Type) where
  parseConfigFn : String → Except GoErr (Option C.interp)
  stripPasswordFn : Option (String → String)
  createFn : Ctx → C.interp → RT → Lim → Except GoErr B
  openFn : Ctx → C.interp → RT → Lim → Except GoErr B

/-- Embedding of `GenericBackendFactory.ParseConfig`: returns the parser's
`*C` result packaged as an `interface{}` value. -/
def GenericBackendFactory.ParseConfig {C : TyCode} {Ctx RT Lim B : Type}
    (f : GenericBackendFactory C Ctx RT Lim B) (s : String) :
    Except GoErr Dyn :=
  (f.parseConfigFn s).map (fun p => (⟨C, p⟩ : Dyn))

/-- Embedding of `GenericBackendFactory.StripPassword`:

  if f.stripPasswordFn != nil { return f.stripPasswordFn(s) }
  return s
-/
def GenericBackendFactory.StripPassword {C : TyCode} {Ctx RT Lim B : Type}
    (f : GenericBackendFactory C Ctx RT Lim B) (s : String) : String :=
  match f.stripPasswordFn with
  | some g => g s
  | none => s

/-- Embedding of `GenericBackendFactory.Create`, whose body is
`return f.createFn(ctx, *cfg.(*C), rt, lim)`: the type assertion `cfg.(*C)`
panics when the dynamic type differs from `*C` (`badCast`); dereferencing a
typed-nil pointer panics (`nilDeref`); otherwise the strongly typed
constructor is invoked. -/
def GenericBackendFactory.Create {C : TyCode} {Ctx RT Lim B : Type}
    (f : GenericBackendFactory C Ctx RT Lim B)
    (ctx : Ctx) (cfg : Dyn) (rt : RT) (lim : Lim) :
    Except Defect (Except GoErr B) :=
  if h : cfg.1 = C then
    match h ▸ cfg.2 with
    | none => Except.error Defect.nilDeref
    | some c => Except.ok (f.createFn ctx c rt lim)
  else Except.error Defect.badCast

/-- Embedding of `GenericBackendFactory.Open`, the body being
`return f.openFn(ctx, *cfg.(*C), rt, lim)`. -/
def GenericBackendFactory.Open {C : TyCode} {Ctx RT Lim B : Type}
    (f : GenericBackendFactory C Ctx RT Lim B)
    (ctx : Ctx) (cfg : Dyn) (rt : RT) (lim : Lim) :
    Except Defect (Except GoErr B) :=
  if h : cfg.1 = C then
    match h ▸ cfg.2 with
    | none => Except.error Defect.nilDeref
    | some c => Except.ok (f.openFn ctx c rt lim)
  else Except.error Defect.badCast

/-- Embedding of `NewHTTPBackendFactory`: wraps transport-based constructors,
discarding the limiter argument. -/
def NewHTTPBackendFactory {C : TyCode} {Ctx RT Lim B : Type}
    (parseConfigFn : String → Except GoErr (Option C.interp))
    (stripPasswordFn : Option (String → String))
    (createFn : Ctx → C.interp → RT → Except GoErr B)
    (openFn : Ctx → C.interp → RT → Except GoErr B) :
    GenericBackendFactory C Ctx RT Lim B :=
  { parseConfigFn := parseConfigFn
    stripPasswordFn := stripPasswordFn
    createFn := fun ctx cfg rt _ => createFn ctx cfg rt
    openFn := fun ctx cfg rt _ => openFn ctx cfg rt }

/-- Embedding of `NewLimitedBackendFactory`: wraps limiter-based
constructors, discarding the transport argument. -/
def NewLimitedBackendFactory {C : TyCode} {Ctx RT Lim B : Type}
    (parseConfigFn : String → Except GoErr (Option C.interp))
    (stripPasswordFn : Option (String → String))
    (createFn : Ctx → C.interp → Lim → Except GoErr B)
    (openFn : Ctx → C.interp → Lim → Except GoErr B) :
    GenericBackendFactory C Ctx RT Lim B :=
  { parseConfigFn := parseConfigFn
    stripPasswordFn := stripPasswordFn
    createFn := fun ctx cfg _ lim => createFn ctx cfg lim
    openFn := fun ctx cfg _ lim => openFn ctx cfg lim }

/-! Section: Registry

The registry's `map[string]Factory` is embedded as an association list whose
values are nil-able `Factory` interface values (`Option F`). Go's map index
expression yields the zero value — a nil interface — when the key is absent,
so reading through `goMapGet` conflates an absent key with a stored nil. -/

/-- Go map index read: the stored value, or the zero value (nil) when the
key is absent. Assignments cons to the front, so the first hit is newest. -/
def goMapGet {F : Type} (m : List (String × Option F)) (k : String) :
    Option F :=
  match m.lookup k with
  | some v => v
  | none => none

/-- Embedding of the `Registry` struct: the scheme-to-factory map. -/
structure Registry (F : Type) where
  factories : List (String × Option F)

/-- Embedding of `NewRegistry`: an empty map. -/
def NewRegistry (F : Type) : Registry F := ⟨[]⟩

/-- Embedding of `Registry.Register`:

  if r.factories[scheme] != nil { panic("duplicate backend") }
  r.factories[scheme] = factory
-/
def Registry.Register {F : Type} (r : Registry F) (scheme : String)
    (factory : Option F) : Except Defect (Registry F) :=
  match goMapGet r.factories scheme with
  | some _ => Except.error Defect.dupRegister
  | none => Except.ok ⟨(scheme, factory) :: r.factories⟩

/-- Embedding of `Registry.Lookup`: `return r.factories[scheme]`. -/
def Registry.Lookup {F : Type} (r : Registry F) (scheme : String) :
    Option F :=
  goMapGet r.factories scheme

/-! Section: Helper lemmas -/

/-- Preservation of a predicate along a left fold. -/
theorem foldlInv {α β : Type} (P : α → Prop) (f : α → β → α)
    (hstep : ∀ a b, P a → P (f a b)) :
    ∀ (l : List β) (init : α), P init → P (l.foldl f init) := by
  intro l
  induction l with
  | nil => intro init h0; simpa using h0
  | cons b t ih =>
      intro init h0
      rw [List.foldl_cons]
      exact ih (f init b) (hstep init b h0)

/-- Evaluation of `watchdogReadCloser.Read` for a non-negative chunk size:
the kick callback fires once before and once after the single underlying
read, the underlying read is handed `min plen chunkSize` bytes, and its
result is forwarded unchanged. -/
theorem watchdogRead_eval (readFn : Nat → Nat × Option GoErr)
    (closeFn : Option GoErr) (chunkSize : Int) (hasCloseAction : Bool)
    (plen : Nat) (hchunk : 0 ≤ chunkSize) :
    watchdogReadCloser.Read ⟨readFn, closeFn, chunkSize, hasCloseAction⟩ plen =
      Except.ok (readFn (min plen chunkSize.toNat),
        [RCEvent.kick, RCEvent.uread (min plen chunkSize.toNat),
          RCEvent.kick]) := by
  unfold watchdogReadCloser.Read
  simp only
  split_ifs with h1 h2
  · omega
  · have hm : min plen chunkSize.toNat = chunkSize.toNat := by omega
    rw [hm]
  · have hm : min plen chunkSize.toNat = plen := by omega
    rw [hm]

/-- One close call of a `watchdogReadCloser` emits exactly one close of the
underlying stream. -/
theorem close_single_uclose (w : watchdogReadCloser) :
    w.Close.2.count RCEvent.uclose = 1 := by
  unfold watchdogReadCloser.Close
  cases h : w.hasCloseAction <;> simp

/-- C3: every call of watchdogReadCloser.Read invokes the kick callback
exactly once before and exactly once after the single underlying read, hands
the underlying read at most chunkSize bytes of the buffer even when the
buffer is larger, and returns the (n, err) result of the underlying read
unchanged. -/
theorem read_kicks_twice_caps_and_forwards
    (readFn : Nat → Nat × Option GoErr) (closeFn : Option GoErr)
    (chunkSize : Int) (hasCloseAction : Bool) (plen : Nat)
    (hchunk : 0 ≤ chunkSize) :
    watchdogReadCloser.Read ⟨readFn, closeFn, chunkSize, hasCloseAction⟩ plen =
      Except.ok (readFn (min plen chunkSize.toNat),
        [RCEvent.kick, RCEvent.uread (min plen chunkSize.toNat),
          RCEvent.kick]) :=
  watchdogRead_eval readFn closeFn chunkSize hasCloseAction plen hchunk

/-- Witness for read_kicks_twice_caps_and_forwards at chunkSize 2 and a
5-byte buffer. -/
theorem read_kicks_twice_caps_and_forwards_witness :
    (0 : Int) ≤ 2 ∧
    watchdogReadCloser.Read
        ⟨fun c => (c, none), none, 2, false⟩ 5 =
      Except.ok ((2, none),
        [RCEvent.kick, RCEvent.uread 2, RCEvent.kick]) :=
  ⟨by decide,
    read_kicks_twice_caps_and_forwards (fun c => (c, none)) none 2 false 5
      (by decide)⟩

/-- C4: every call of watchdogReadCloser.Close invokes the close callback
first when one was supplied and skips it when it is nil, then always
forwards to the underlying stream's Close and returns its result; repeated
closes forward repeatedly, with no deduplication. -/
theorem close_runs_action_then_forwards (w : watchdogReadCloser) (k : Nat) :
    (w.hasCloseAction = true →
      w.Close = (w.closeFn, [RCEvent.closeAct, RCEvent.uclose])) ∧
    (w.hasCloseAction = false →
      w.Close = (w.closeFn, [RCEvent.uclose])) ∧
    (w.closeMany k).count RCEvent.uclose = k := by
  refine ⟨?_, ?_, ?_⟩
  · intro h; unfold watchdogReadCloser.Close; rw [h]; rfl
  · intro h; unfold watchdogReadCloser.Close; rw [h]; rfl
  · induction k with
    | zero => rfl
    | succ n ih =>
        unfold watchdogReadCloser.closeMany at ih ⊢
        rw [List.replicate_succ, List.flatten_cons, List.count_append, ih,
          close_single_uclose]
        omega

/-- Witness for close_runs_action_then_forwards on a wrapper with a close
action and on one without, with three repeated closes. -/
theorem close_runs_action_then_forwards_witness :
    (watchdogReadCloser.mk (fun c => (c, none)) none 4 true).hasCloseAction
        = true ∧
    (watchdogReadCloser.mk (fun c => (c, none)) none 4 true).Close =
      (none, [RCEvent.closeAct, RCEvent.uclose]) ∧
    (watchdogReadCloser.mk (fun c => (c, none)) none 4 false).hasCloseAction
        = false ∧
    (watchdogReadCloser.mk (fun c => (c, none)) none 4 false).Close =
      (none, [RCEvent.uclose]) ∧
    ((watchdogReadCloser.mk (fun c => (c, none)) none 4 true).closeMany
        3).count RCEvent.uclose = 3 :=
  ⟨rfl,
    (close_runs_action_then_forwards
      (watchdogReadCloser.mk (fun c => (c, none)) none 4 true) 3).1 rfl,
    rfl,
    (close_runs_action_then_forwards
      (watchdogReadCloser.mk (fun c => (c, none)) none 4 false) 3).2.1 rfl,
    (close_runs_action_then_forwards
      (watchdogReadCloser.mk (fun c => (c, none)) none 4 true) 3).2.2⟩

/-- C10: the buffer truncation of watchdogReadCloser.Read is safe exactly
for non-negative chunk sizes: with chunkSize at least zero no slice-bounds
panic occurs; with chunkSize zero the underlying read always receives an
empty buffer, so no bytes are transferred; with a negative chunkSize a read
with a non-empty buffer panics on the slice expression. -/
theorem read_chunk_truncation_safety
    (readFn : Nat → Nat × Option GoErr) (closeFn : Option GoErr)
    (chunkSize : Int) (hasCloseAction : Bool) (plen : Nat)
    (hr : ∀ c, (readFn c).1 ≤ c) :
    (0 ≤ chunkSize →
      watchdogReadCloser.Read ⟨readFn, closeFn, chunkSize, hasCloseAction⟩
          plen =
        Except.ok (readFn (min plen chunkSize.toNat),
          [RCEvent.kick, RCEvent.uread (min plen chunkSize.toNat),
            RCEvent.kick])) ∧
    (chunkSize = 0 →
      watchdogReadCloser.Read ⟨readFn, closeFn, chunkSize, hasCloseAction⟩
          plen =
        Except.ok ((0, (readFn 0).2),
          [RCEvent.kick, RCEvent.uread 0, RCEvent.kick])) ∧
    (chunkSize < 0 → 0 < plen →
      watchdogReadCloser.Read ⟨readFn, closeFn, chunkSize, hasCloseAction⟩
          plen = Except.error Defect.sliceBounds) := by
  refine ⟨?_, ?_, ?_⟩
  · intro h0
    exact watchdogRead_eval readFn closeFn chunkSize hasCloseAction plen h0
  · intro h0
    have h0' : (0 : Int) ≤ chunkSize := le_of_eq h0.symm
    rw [watchdogRead_eval readFn closeFn chunkSize hasCloseAction plen h0']
    have hm : min plen chunkSize.toNat = 0 := by omega
    rw [hm]
    cases hre : readFn 0 with
    | mk a b =>
        have ha : a = 0 := by
          have h' := hr 0
          rw [hre] at h'
          exact Nat.le_zero.mp h'
        rw [ha]
  · intro hneg hpos
    unfold watchdogReadCloser.Read
    simp only
    rw [if_pos (by omega : (plen : Int) > chunkSize),
      if_pos (by omega : chunkSize < 0)]

/-- Witness for read_chunk_truncation_safety at chunk sizes 3, 0 and -1. -/
theorem read_chunk_truncation_safety_witness :
    watchdogReadCloser.Read ⟨fun _ => (0, none), none, 3, false⟩ 8 =
      Except.ok ((0, none),
        [RCEvent.kick, RCEvent.uread 3, RCEvent.kick]) ∧
    watchdogReadCloser.Read ⟨fun _ => (0, none), none, 0, false⟩ 8 =
      Except.ok ((0, none),
        [RCEvent.kick, RCEvent.uread 0, RCEvent.kick]) ∧
    watchdogReadCloser.Read ⟨fun _ => (0, none), none, -1, false⟩ 8 =
      Except.error Defect.sliceBounds :=
  ⟨(read_chunk_truncation_safety (fun _ => (0, none)) none 3 false 8
      (fun c => Nat.zero_le c)).1 (by decide),
    (read_chunk_truncation_safety (fun _ => (0, none)) none 0 false 8
      (fun c => Nat.zero_le c)).2.1 rfl,
    (read_chunk_truncation_safety (fun _ => (0, none)) none (-1) false 8
      (fun c => Nat.zero_le c)).2.2 (by decide) (by decide)⟩

/-! Section: Registry and factory theorems -/

/-- A limiter-discarding factory built by the transport-based constructor:
its parser returns a nil config pointer with no error, which Go's calling
convention treats as a successful parse. -/
def nilParseHTTPFactory : GenericBackendFactory TyCode.cNat Unit Unit Unit Nat :=
  NewHTTPBackendFactory (fun _ => Except.ok none) none
    (fun _ c _ => Except.ok c) (fun _ c _ => Except.ok (c + 1))

/-- A sample factory with no strip-password function. -/
def sampleFactoryNoStrip : GenericBackendFactory TyCode.cNat Unit Unit Unit Nat :=
  { parseConfigFn := fun _ => Except.ok (some 7)
    stripPasswordFn := none
    createFn := fun _ c _ _ => Except.ok c
    openFn := fun _ c _ _ => Except.ok (c + 1) }

/-- A sample redaction function. -/
def redactAll : String → String := fun _ => "redacted"

/-- A sample factory whose strip-password function is `redactAll`. -/
def sampleFactoryStrip : GenericBackendFactory TyCode.cNat Unit Unit Unit Nat :=
  { sampleFactoryNoStrip with stripPasswordFn := some redactAll }

/-- C5 counterexample: a factory built with NewHTTPBackendFactory whose
parser returns a nil config pointer and a nil error. ParseConfig succeeds,
yet Create and Open with that very value panic on the nil-pointer
dereference before reaching the underlying constructor, refuting the claim
that a successful ParseConfig value always reaches the constructor. -/
theorem parseConfig_nil_value_panics_before_constructor :
    nilParseHTTPFactory.ParseConfig "cfg" =
      Except.ok (⟨TyCode.cNat, none⟩ : Dyn) ∧
    nilParseHTTPFactory.Create () (⟨TyCode.cNat, none⟩ : Dyn) () () =
      Except.error Defect.nilDeref ∧
    nilParseHTTPFactory.Open () (⟨TyCode.cNat, none⟩ : Dyn) () () =
      Except.error Defect.nilDeref :=
  ⟨rfl, rfl, rfl⟩

/-- C5 (amended): a config value produced by the same factory's ParseConfig
always passes the downcast — Create and Open never fail the type assertion
on it — and whenever the parsed config pointer is non-nil the call reaches
the underlying backend constructor; this holds for the factories built by
NewHTTPBackendFactory and by NewLimitedBackendFactory alike. A parser that
returns a nil pointer with a nil error passes the downcast but panics at the
dereference instead of reaching the constructor. -/
theorem parseConfig_roundtrip_reaches_constructor
    {C : TyCode} {Ctx RT Lim B : Type}
    (f : GenericBackendFactory C Ctx RT Lim B)
    (pfH : String → Except GoErr (Option C.interp))
    (spfH : Option (String → String))
    (cfH opH : Ctx → C.interp → RT → Except GoErr B)
    (pfL : String → Except GoErr (Option C.interp))
    (spfL : Option (String → String))
    (cfL opL : Ctx → C.interp → Lim → Except GoErr B)
    (ctx : Ctx) (rt : RT) (lim : Lim) (s : String)
    (p : Option C.interp) (c : C.interp)
    (hp : f.parseConfigFn s = Except.ok p) :
    f.ParseConfig s = Except.ok (⟨C, p⟩ : Dyn) ∧
    f.Create ctx (⟨C, p⟩ : Dyn) rt lim ≠ Except.error Defect.badCast ∧
    f.Open ctx (⟨C, p⟩ : Dyn) rt lim ≠ Except.error Defect.badCast ∧
    f.Create ctx (⟨C, some c⟩ : Dyn) rt lim =
      Except.ok (f.createFn ctx c rt lim) ∧
    f.Open ctx (⟨C, some c⟩ : Dyn) rt lim =
      Except.ok (f.openFn ctx c rt lim) ∧
    ((NewHTTPBackendFactory pfH spfH cfH opH :
        GenericBackendFactory C Ctx RT Lim B)).Create ctx
        (⟨C, some c⟩ : Dyn) rt lim = Except.ok (cfH ctx c rt) ∧
    ((NewHTTPBackendFactory pfH spfH cfH opH :
        GenericBackendFactory C Ctx RT Lim B)).Open ctx
        (⟨C, some c⟩ : Dyn) rt lim = Except.ok (opH ctx c rt) ∧
    ((NewLimitedBackendFactory pfL spfL cfL opL :
        GenericBackendFactory C Ctx RT Lim B)).Create ctx
        (⟨C, some c⟩ : Dyn) rt lim = Except.ok (cfL ctx c lim) ∧
    ((NewLimitedBackendFactory pfL spfL cfL opL :
        GenericBackendFactory C Ctx RT Lim B)).Open ctx
        (⟨C, some c⟩ : Dyn) rt lim = Except.ok (opL ctx c lim) := by
  refine ⟨?_, ?_, ?_, ?_, ?_, ?_, ?_, ?_, ?_⟩
  · unfold GenericBackendFactory.ParseConfig
    rw [hp]
    rfl
  · unfold GenericBackendFactory.Create
    rw [dif_pos rfl]
    cases p <;> simp
  · unfold GenericBackendFactory.Open
    rw [dif_pos rfl]
    cases p <;> simp
  · unfold GenericBackendFactory.Create
    rw [dif_pos rfl]
  · unfold GenericBackendFactory.Open
    rw [dif_pos rfl]
  · unfold GenericBackendFactory.Create
    rw [dif_pos rfl]
    rfl
  · unfold GenericBackendFactory.Open
    rw [dif_pos rfl]
    rfl
  · unfold GenericBackendFactory.Create
    rw [dif_pos rfl]
    rfl
  · unfold GenericBackendFactory.Open
    rw [dif_pos rfl]
    rfl

/-- Witness for parseConfig_roundtrip_reaches_constructor on a concrete
factory whose parser yields the config 7. -/
theorem parseConfig_roundtrip_reaches_constructor_witness :
    sampleFactoryNoStrip.ParseConfig "loc" =
      Except.ok (⟨TyCode.cNat, some 7⟩ : Dyn) ∧
    sampleFactoryNoStrip.Create () (⟨TyCode.cNat, some 7⟩ : Dyn) () () =
      Except.ok (Except.ok 7) ∧
    sampleFactoryNoStrip.Open () (⟨TyCode.cNat, some 7⟩ : Dyn) () () =
      Except.ok (Except.ok 8) :=
  ⟨(parseConfig_roundtrip_reaches_constructor sampleFactoryNoStrip
      (fun _ => Except.ok none) none (fun _ c _ => Except.ok c)
      (fun _ c _ => Except.ok c) (fun _ => Except.ok none) none
      (fun _ c _ => Except.ok c) (fun _ c _ => Except.ok c)
      () () () "loc" (some 7) 7 rfl).1,
    (parseConfig_roundtrip_reaches_constructor sampleFactoryNoStrip
      (fun _ => Except.ok none) none (fun _ c _ => Except.ok c)
      (fun _ c _ => Except.ok c) (fun _ => Except.ok none) none
      (fun _ c _ => Except.ok c) (fun _ c _ => Except.ok c)
      () () () "loc" (some 7) 7 rfl).2.2.2.1,
    (parseConfig_roundtrip_reaches_constructor sampleFactoryNoStrip
      (fun _ => Except.ok none) none (fun _ c _ => Except.ok c)
      (fun _ c _ => Except.ok c) (fun _ => Except.ok none) none
      (fun _ c _ => Except.ok c) (fun _ c _ => Except.ok c)
      () () () "loc" (some 7) 7 rfl).2.2.2.2.1⟩

/-- C6: Create and Open called with a config value whose dynamic type is not
a pointer to this factory's own config type panic on the failed type
assertion rather than proceeding with a wrong-typed config. -/
theorem create_open_wrong_type_panics
    {C : TyCode} {Ctx RT Lim B : Type}
    (f : GenericBackendFactory C Ctx RT Lim B)
    (ctx : Ctx) (cfg : Dyn) (rt : RT) (lim : Lim) (h : cfg.1 ≠ C) :
    f.Create ctx cfg rt lim = Except.error Defect.badCast ∧
    f.Open ctx cfg rt lim = Except.error Defect.badCast := by
  constructor
  · unfold GenericBackendFactory.Create
    rw [dif_neg h]
  · unfold GenericBackendFactory.Open
    rw [dif_neg h]

/-- Witness for create_open_wrong_type_panics: a string-typed config passed
to a Nat-config factory panics. -/
theorem create_open_wrong_type_panics_witness :
    sampleFactoryNoStrip.Create () (⟨TyCode.cString, some "cfg"⟩ : Dyn) () () =
      Except.error Defect.badCast ∧
    sampleFactoryNoStrip.Open () (⟨TyCode.cString, some "cfg"⟩ : Dyn) () () =
      Except.error Defect.badCast :=
  create_open_wrong_type_panics sampleFactoryNoStrip ()
    (⟨TyCode.cString, some "cfg"⟩ : Dyn) () () (by decide)

/-- C8: StripPassword returns its argument unchanged when no stripping
function was supplied, and applies the supplied stripping function
otherwise. -/
theorem stripPassword_identity_or_apply
    {C : TyCode} {Ctx RT Lim B : Type}
    (f : GenericBackendFactory C Ctx RT Lim B) (s : String)
    (g : String → String) :
    (f.stripPasswordFn = none → f.StripPassword s = s) ∧
    (f.stripPasswordFn = some g → f.StripPassword s = g s) := by
  constructor
  · intro h
    unfold GenericBackendFactory.StripPassword
    rw [h]
  · intro h
    unfold GenericBackendFactory.StripPassword
    rw [h]

/-- Witness for stripPassword_identity_or_apply: identity without a
stripping function (also on the empty string), redaction with one. -/
theorem stripPassword_identity_or_apply_witness :
    sampleFactoryNoStrip.StripPassword "user:pw@host" = "user:pw@host" ∧
    sampleFactoryNoStrip.StripPassword "" = "" ∧
    sampleFactoryStrip.StripPassword "user:pw@host" =
      redactAll "user:pw@host" :=
  ⟨(stripPassword_identity_or_apply sampleFactoryNoStrip "user:pw@host"
      redactAll).1 rfl,
    (stripPassword_identity_or_apply sampleFactoryNoStrip "" redactAll).1 rfl,
    (stripPassword_identity_or_apply sampleFactoryStrip "user:pw@host"
      redactAll).2 rfl⟩

/-- C7: registering a scheme that is not yet registered stores the factory
without failing, and a second Register for a scheme that is already
registered panics instead of returning a recoverable error. -/
theorem register_duplicate_fatal {F : Type} (r : Registry F)
    (scheme : String) (f0 g : F) (h : r.Lookup scheme = none) :
    r.Register scheme (some f0) =
      Except.ok ⟨(scheme, some f0) :: r.factories⟩ ∧
    (Registry.mk ((scheme, some f0) :: r.factories)).Lookup scheme =
      some f0 ∧
    (Registry.mk ((scheme, some f0) :: r.factories)).Register scheme
      (some g) = Except.error Defect.dupRegister := by
  unfold Registry.Lookup at h
  refine ⟨?_, ?_, ?_⟩
  · unfold Registry.Register
    rw [h]
  · unfold Registry.Lookup goMapGet
    simp [List.lookup]
  · unfold Registry.Register goMapGet
    simp [List.lookup]

/-- Witness for register_duplicate_fatal on a fresh registry. -/
theorem register_duplicate_fatal_witness :
    (NewRegistry Nat).Register "s3" (some 1) =
      Except.ok ⟨[("s3", some 1)]⟩ ∧
    (Registry.mk [("s3", some 1)]).Lookup "s3" = some 1 ∧
    (Registry.mk [("s3", some 1)]).Register "s3" (some 2) =
      Except.error Defect.dupRegister :=
  register_duplicate_fatal (NewRegistry Nat) "s3" 1 2 rfl

/-- C9: the duplicate check and Lookup both read the map through Go's
zero-value semantics, so a stored nil factory behaves like an absent entry:
registering nil then registering again does not panic, and Lookup returns
the absent value. -/
theorem register_nil_treated_as_absent {F : Type} (r r' : Registry F)
    (scheme : String) (g : F)
    (h : r.Register scheme none = Except.ok r') :
    r'.Lookup scheme = none ∧
    r'.Register scheme (some g) =
      Except.ok ⟨(scheme, some g) :: r'.factories⟩ := by
  unfold Registry.Register at h
  rcases hm : goMapGet r.factories scheme with _ | v
  · rw [hm] at h
    have hr' : r' = Registry.mk ((scheme, none) :: r.factories) :=
      (Except.ok.injEq _ _).mp h.symm ▸ rfl
    have hlook : r'.Lookup scheme = none := by
      rw [hr']
      unfold Registry.Lookup goMapGet
      simp [List.lookup]
    refine ⟨hlook, ?_⟩
    unfold Registry.Register
    unfold Registry.Lookup at hlook
    rw [hlook]
  · rw [hm] at h
    exact absurd h (by simp)

/-- Witness for register_nil_treated_as_absent on a fresh registry. -/
theorem register_nil_treated_as_absent_witness :
    (Registry.mk [("swift", (none : Option Nat))]).Lookup "swift" = none ∧
    (Registry.mk [("swift", (none : Option Nat))]).Register "swift"
      (some 5) = Except.ok ⟨[("swift", some 5), ("swift", none)]⟩ :=
  register_nil_treated_as_absent (NewRegistry Nat)
    (Registry.mk [("swift", none)]) "swift" 5 rfl

/-! Section: Watchdog state-machine invariants -/

/-- Invariant of one RoundTrip call's machinery: the armed deadline is never
further than one timeout ahead of now; a watcher that exited saw a cancelled
context; the watcher's deferred timer stop runs exactly when it exits; the
cancellation flag and the recorded cancellation time agree; and the recorded
cancellation time never lies in the future. -/
def WdInv (T : Nat) (s : WdState) : Prop :=
  s.deadline ≤ s.now + T ∧
  (s.watcherDone = true → s.cancelled = true) ∧
  s.watcherDone = s.timerStopped ∧
  s.cancelled = s.cancelTime.isSome ∧
  s.cancelTime.getD 0 ≤ s.now

/-- The initial state satisfies the invariant. -/
theorem wdInv_init (T : Nat) : WdInv T (wdInit T) := by
  unfold WdInv wdInit
  simp

/-- Advancing time preserves the invariant. -/
theorem wdInv_stepTimer (T : Nat) (s : WdState) (t' : Nat)
    (hle : s.now ≤ t') (h : WdInv T s) : WdInv T (stepTimer s t') := by
  obtain ⟨h1, h2, h3, h4, h5⟩ := h
  unfold WdInv stepTimer doCancel watcherExit
  cases hw : s.watcherDone <;> cases hc : s.cancelled <;>
    simp [hw, hc] <;> (try split_ifs) <;> (try simp_all) <;> omega

/-- Applying an external stimulus preserves the invariant. -/
theorem wdInv_applyAction (T : Nat) (s : WdState) (a : WdAction)
    (h : WdInv T s) : WdInv T (applyAction T s a) := by
  obtain ⟨h1, h2, h3, h4, h5⟩ := h
  unfold WdInv applyAction doCancel watcherExit
  cases a <;> cases hw : s.watcherDone <;> cases hc : s.cancelled <;>
    simp_all

/-- One machine step preserves the invariant. -/
theorem wdInv_step (T : Nat) (s : WdState) (e : Nat × WdAction)
    (h : WdInv T s) : WdInv T (wdStep T s e) :=
  wdInv_applyAction T _ e.2
    (wdInv_stepTimer T s (s.now + e.1) (Nat.le_add_right _ _) h)

/-- Every reachable state of a run satisfies the invariant. -/
theorem wdInv_run (T : Nat) (es : List (Nat × WdAction)) :
    WdInv T (wdRun T es) :=
  foldlInv (WdInv T) (wdStep T) (fun s e h => wdInv_step T s e h) es
    (wdInit T) (wdInv_init T)

/-- Once the derived context is cancelled, advancing time keeps it cancelled
with the same cancellation instant. -/
theorem stepTimer_cancel_persists (s : WdState) (t' : Nat)
    (h : s.cancelled = true) :
    (stepTimer s t').cancelled = true ∧
    (stepTimer s t').cancelTime = s.cancelTime := by
  unfold stepTimer doCancel watcherExit
  cases hw : s.watcherDone <;> simp_all

/-- Once the derived context is cancelled, external stimuli keep it
cancelled with the same cancellation instant. -/
theorem applyAction_cancel_persists (T : Nat) (s : WdState) (a : WdAction)
    (h : s.cancelled = true) :
    (applyAction T s a).cancelled = true ∧
    (applyAction T s a).cancelTime = s.cancelTime := by
  unfold applyAction doCancel watcherExit
  cases a <;> cases hw : s.watcherDone <;> simp_all

/-- Once the derived context is cancelled, a machine step keeps it cancelled
with the same cancellation instant. -/
theorem wdStep_cancel_persists (T : Nat) (s : WdState) (e : Nat × WdAction)
    (h : s.cancelled = true) :
    (wdStep T s e).cancelled = true ∧
    (wdStep T s e).cancelTime = s.cancelTime := by
  have h1 := stepTimer_cancel_persists s (s.now + e.1) h
  have h2 := applyAction_cancel_persists T (stepTimer s (s.now + e.1)) e.2 h1.1
  exact ⟨h2.1, h2.2.trans h1.2⟩

/-- Cancellation and its instant persist along any remaining trace. -/
theorem wdRun_cancel_persists (T : Nat) (v : Option Nat)
    (es : List (Nat × WdAction)) (s : WdState)
    (h : s.cancelled = true ∧ s.cancelTime = v) :
    (es.foldl (wdStep T) s).cancelled = true ∧
    (es.foldl (wdStep T) s).cancelTime = v := by
  refine foldlInv (fun x => x.cancelled = true ∧ x.cancelTime = v)
    (wdStep T) ?_ es s h
  intro x e hx
  have hp := wdStep_cancel_persists T x e hx.1
  exact ⟨hp.1, hp.2.trans hx.2⟩

/-- A gap longer than the timeout with no intervening stimulus makes the
watcher fire: after processing that gap the derived context is cancelled,
at an instant no later than one timeout past the last stimulus before the
gap, and it stays cancelled for the rest of the run. -/
theorem stall_cancels_core (T δ : Nat) (a : WdAction)
    (p rest : List (Nat × WdAction)) (hδ : T < δ) :
    (wdRun T (p ++ (δ, a) :: rest)).cancelled = true ∧
    (wdRun T (p ++ (δ, a) :: rest)).cancelTime.getD 0 ≤
      (wdRun T p).now + T := by
  have happ : wdRun T (p ++ (δ, a) :: rest) =
      rest.foldl (wdStep T) (wdStep T (wdRun T p) (δ, a)) := by
    unfold wdRun
    rw [List.foldl_append, List.foldl_cons]
  have hinv : WdInv T (wdRun T p) := wdInv_run T p
  obtain ⟨h1, h2, h3, h4, h5⟩ := hinv
  have h1' : (wdStep T (wdRun T p) (δ, a)).cancelled = true ∧
      (wdStep T (wdRun T p) (δ, a)).cancelTime.getD 0 ≤
        (wdRun T p).now + T := by
    cases hc : (wdRun T p).cancelled with
    | true =>
        have hp := wdStep_cancel_persists T (wdRun T p) (δ, a) hc
        refine ⟨hp.1, ?_⟩
        rw [hp.2]
        omega
    | false =>
        have hwd : (wdRun T p).watcherDone = false := by
          cases hwd' : (wdRun T p).watcherDone
          · rfl
          · rw [h2 hwd'] at hc
            exact Bool.noConfusion hc
        have hfire : (wdRun T p).deadline < (wdRun T p).now + δ := by omega
        have hst : (stepTimer (wdRun T p) ((wdRun T p).now + δ)).cancelled
              = true ∧
            (stepTimer (wdRun T p) ((wdRun T p).now + δ)).cancelTime =
              some (wdRun T p).deadline := by
          unfold stepTimer doCancel watcherExit
          simp [hwd, hc, hfire]
        have hap := applyAction_cancel_persists T
          (stepTimer (wdRun T p) ((wdRun T p).now + δ)) a hst.1
        refine ⟨hap.1, ?_⟩
        unfold wdStep
        rw [hap.2, hst.2]
        simpa using h1
  have hrest := wdRun_cancel_persists T
    (wdStep T (wdRun T p) (δ, a)).cancelTime rest
    (wdStep T (wdRun T p) (δ, a)) ⟨h1'.1, rfl⟩
  rw [happ]
  refine ⟨hrest.1, ?_⟩
  rw [hrest.2]
  exact h1'.2

/-- C2: each RoundTrip call spawns exactly one watcher task — one is alive
initially and never more than one is alive in any reachable state — and on
every code path (timer fires, request context independently cancelled,
transport returns an error so that nothing ever closes the body, response
body closed) the watcher task terminates and its deferred timer stop runs. -/
theorem roundTrip_watcher_unique_and_terminates
    (T : Nat) (p es : List (Nat × WdAction)) :
    aliveWatchers (wdInit T) = 1 ∧
    aliveWatchers (wdRun T p) ≤ 1 ∧
    (wdFinal T es).watcherDone = true ∧
    (wdFinal T es).timerStopped = true := by
  refine ⟨rfl, ?_, ?_, ?_⟩
  · unfold aliveWatchers
    split <;> omega
  · unfold wdFinal
    cases hw : (wdRun T es).watcherDone <;> simp [hw, watcherExit]
  · unfold wdFinal
    have hinv := wdInv_run T es
    cases hw : (wdRun T es).watcherDone
    · simp [hw, watcherExit]
    · simp [hw]
      rw [← hinv.2.2.1]
      exact hw

/-- C1: a RoundTrip whose body makes no read progress for longer than the
timeout — a gap in the stimulus trace strictly exceeding T with no kick —
ends with the derived request context cancelled, at an instant no later
than one timeout past the last prior stimulus, and a subsequent body read
through the watchdog wrapper (whose context-aware underlying stream unwinds
once cancelled) returns the cancellation error instead of blocking. -/
theorem stalled_roundTrip_cancels_and_errors
    (T δ : Nat) (a : WdAction) (p rest : List (Nat × WdAction))
    (chunkSize : Int) (plen : Nat)
    (normalRead : Nat → Nat × Option GoErr)
    (hδ : T < δ) (hchunk : 0 ≤ chunkSize) :
    (wdRun T (p ++ (δ, a) :: rest)).cancelled = true ∧
    (wdRun T (p ++ (δ, a) :: rest)).cancelTime.isSome = true ∧
    (wdRun T (p ++ (δ, a) :: rest)).cancelTime.getD 0 ≤
      (wdRun T p).now + T ∧
    watchdogReadCloser.Read
        ⟨ctxAwareRead (wdRun T (p ++ (δ, a) :: rest)).cancelled normalRead,
          none, chunkSize, true⟩ plen =
      Except.ok ((0, some GoErr.canceled),
        [RCEvent.kick, RCEvent.uread (min plen chunkSize.toNat),
          RCEvent.kick]) := by
  have hcore := stall_cancels_core T δ a p rest hδ
  have hinv := wdInv_run T (p ++ (δ, a) :: rest)
  refine ⟨hcore.1, ?_, hcore.2, ?_⟩
  · rw [← hinv.2.2.2.1]
    exact hcore.1
  · rw [hcore.1]
    rw [watchdogRead_eval _ none chunkSize true plen hchunk]
    rfl

/-- Witness for stalled_roundTrip_cancels_and_errors: timeout 1, a single
stimulus arriving after a gap of 2. -/
theorem stalled_roundTrip_cancels_and_errors_witness :
    1 < 2 ∧ (0 : Int) ≤ 1 ∧
    (wdRun 1 ([] ++ (2, WdAction.kick) :: [])).cancelled = true ∧
    (wdRun 1 ([] ++ (2, WdAction.kick) :: [])).cancelTime.isSome = true ∧
    (wdRun 1 ([] ++ (2, WdAction.kick) :: [])).cancelTime.getD 0 ≤
      (wdRun 1 []).now + 1 ∧
    watchdogReadCloser.Read
        ⟨ctxAwareRead (wdRun 1 ([] ++ (2, WdAction.kick) :: [])).cancelled
          (fun _ => (1, none)), none, 1, true⟩ 3 =
      Except.ok ((0, some GoErr.canceled),
        [RCEvent.kick, RCEvent.uread (min 3 (Int.toNat 1)),
          RCEvent.kick]) :=
  ⟨by decide, by decide,
    stalled_roundTrip_cancels_and_errors 1 2 WdAction.kick [] [] 1 3
      (fun _ => (1, none)) (by decide) (by decide)⟩

end ResticBackend
